import Mathlib

/-!
Shallow embedding of the stepping engine of `ModelicaEnv`
(`openmodelica_microgrid_gym/env/modelica.py`) and of the controller
parameter records (`gym_microgrid/controllers/params.py`).

Python floats are modelled as rationals extended with NaN and the two
infinities.  The FMU oracle and the scipy `solve_ivp` routine are external
collaborators: they are modelled as an abstract oracle-state type `σ`
together with function-valued configuration fields.  Fields of the Python
object that are assigned in `__init__` and never reassigned afterwards live
in the configuration structure `ModelicaEnv`; attributes reassigned by
`reset`/`step` (`_failed`, `sim_time_interval`, `_state`, `measurement`,
the history records and the mutable FMU) live in `EnvState`.
-/

namespace OMG

/-- A Python float value: finite (modelled as a rational), `nan`, `inf` or
`-inf`. -/
inductive PyFloat
  | fin (q : ℚ)
  | nan
  | inf
  | ninf
deriving DecidableEq

/-- A value returned by the user-supplied `reward_fun`: a float, or Python
`None` (the docstring at modelica.py:51 names `np.nan`, `-np.inf` and `None`
as failure signals). -/
inductive RewardVal
  | val (f : PyFloat)
  | noneV
deriving DecidableEq

/-- The Python exceptions relevant to the stepping engine. -/
inductive PyErr
  | typeError
  | valueError
  | solverError
deriving DecidableEq

/-- `np.isnan`: `True` exactly on NaN floats, and raises a `TypeError` when
applied to `None`. -/
def npIsNan : RewardVal → Except PyErr Bool
  | .noneV => .error .typeError
  | .val .nan => .ok true
  | .val _ => .ok false

/-- `np.isinf`: `True` on both infinities, and raises a `TypeError` when
applied to `None`. -/
def npIsInf : RewardVal → Except PyErr Bool
  | .noneV => .error .typeError
  | .val .inf => .ok true
  | .val .ninf => .ok true
  | .val _ => .ok false

/-- Python `reward < 0` on a float (`nan < 0` and `inf < 0` are `False`,
`-inf < 0` is `True`); comparing `None` with `0` raises a `TypeError`. -/
def pyLtZero : RewardVal → Except PyErr Bool
  | .noneV => .error .typeError
  | .val (.fin q) => .ok (decide (q < 0))
  | .val .nan => .ok false
  | .val .inf => .ok false
  | .val .ninf => .ok true

/-- modelica.py:339, `np.isnan(reward) or np.isinf(reward) and reward < 0 or
reward is None`, with Python operator precedence (`and` binds tighter than
`or`) and left-to-right short-circuit evaluation: `np.isnan` is evaluated
first, so a `None` reward raises a `TypeError` before the `reward is None`
test is reached. -/
def failedOf (r : RewardVal) : Except PyErr Bool :=
  match npIsNan r with
  | .error e => .error e
  | .ok true => .ok true
  | .ok false =>
    match npIsInf r with
    | .error e => .error e
    | .ok true =>
      match pyLtZero r with
      | .error e => .error e
      | .ok true => .ok true
      | .ok false => .ok (decide (r = RewardVal.noneV))
    | .ok false => .ok (decide (r = RewardVal.noneV))

/-- The object returned by `scipy.integrate.solve_ivp`, abstracted: either a
solution object (the possibly mutated oracle state, the last solution column
`sol_out.y[:, -1]`, and a success status), or a raised exception that leaves
the oracle in some mutated state. -/
inductive SolverResult (σ : Type)
  | sol (s : σ) (y_last : List ℚ) (success : Bool)
  | raise (s : σ) (e : PyErr)

/-- Constructor-time configuration of `ModelicaEnv`
(modelica.py:32-166): every field is assigned in `__init__` and never
reassigned afterwards.  `time_end` is `none` when `max_episode_steps` is
`None` (`np.inf`), otherwise `some (time_start + max_episode_steps *
time_step_size)` (modelica.py:117-118). -/
structure ModelicaEnv (σ : Type) where
  time_start : ℚ
  time_step_size : ℚ
  time_end : Option ℚ
  reward : List String → List ℚ → RewardVal
  model_input_names : List String
  history_cols : List String
  model_parameters : List (String × (ℚ → ℚ))
  modelSet : σ → List String → List ℚ → σ
  solve_ivp : σ → ℚ × ℚ → SolverResult σ
  commitStates : σ → List ℚ → σ
  getReal : σ → List ℚ
  resetModel : σ → σ

/-- The attributes of `ModelicaEnv` that `reset` and `step` reassign. -/
structure EnvState (σ : Type) where
  oracle : σ
  sim_time_interval : ℚ × ℚ
  _failed : Bool
  _state : List ℚ
  measurement : List ℚ
  history : List (List ℚ)

/-- Python `abs` on a rational, written out as a conditional. -/
def ratAbs (q : ℚ) : ℚ := if q < 0 then -q else q

/-- `abs(t) > time_end` where `time_end` may be `np.inf` (modelled `none`),
in which case the comparison is always `False`. -/
def timeExceededB : Option ℚ → ℚ → Bool
  | none, _ => false
  | some te, t => decide (ratAbs t > te)

/-- `ModelicaEnv.is_done` (modelica.py:244-256): `True` when `_failed` is
set, otherwise `abs(sim_time_interval[1]) > time_end`. -/
def ModelicaEnv.is_done (cfg : ModelicaEnv σ) (st : EnvState σ) : Bool :=
  st._failed || timeExceededB cfg.time_end st.sim_time_interval.2

/-- Result of `ModelicaEnv._simulate`: either the observation together with
the mutated oracle, or a propagated exception. -/
inductive SimResult (σ : Type)
  | ok (s : σ) (obs : List ℚ)
  | raise (s : σ) (e : PyErr)

/-- `ModelicaEnv._simulate` (modelica.py:223-242): call
`scipy.integrate.solve_ivp` over `sim_time_interval` with no surrounding
try/except, assign `sol_out.y[:, -1]` to the model's continuous states
without inspecting `sol_out.success`, and read the declared outputs.  A
solver exception therefore propagates, and an unconverged solution is
committed like a converged one. -/
def ModelicaEnv._simulate (cfg : ModelicaEnv σ) (st : EnvState σ) : SimResult σ :=
  match cfg.solve_ivp st.oracle st.sim_time_interval with
  | .raise s e => .raise s e
  | .sol s y_last _success =>
    let s := cfg.commitStates s y_last
    .ok s (cfg.getReal s)

/-- A Python value passed as `action`: either iterable (a list of floats) or
a bare scalar, for which `iter(action)` raises a `TypeError`. -/
inductive PyAction
  | scalar (x : ℚ)
  | list (xs : List ℚ)

/-- modelica.py:301-306: `try: iter(action) except TypeError: action =
[action]` — a non-iterable action is wrapped into a one-element list (with a
logged warning), an iterable one is kept as is. -/
def normalizeAction : PyAction → List ℚ
  | .scalar x => [x]
  | .list xs => xs

/-- Result of one `step` call: the returned `(obs, reward, done, info)`
tuple together with the final attribute state, or a raised exception
together with the attribute state at the moment of the raise. -/
inductive StepOutcome (σ : Type)
  | ok (obs : List ℚ) (reward : RewardVal) (done : Bool)
    (info : List (String × String)) (st : EnvState σ)
  | err (e : PyErr) (st : EnvState σ)

/-- The oracle state after modelica.py:317-321: `model.set` with the input
names and action values, then, when `model_parameters` is non-empty,
`model.set` with the scheduled parameters evaluated at the interval start. -/
def ModelicaEnv.oracleAfterSet (cfg : ModelicaEnv σ) (st : EnvState σ)
    (action : List ℚ) : σ :=
  let s := cfg.modelSet st.oracle cfg.model_input_names action
  if cfg.model_parameters.isEmpty then s
  else cfg.modelSet s (cfg.model_parameters.map Prod.fst)
    (cfg.model_parameters.map fun p => p.2 st.sim_time_interval.1)

/-- The body of `ModelicaEnv.step` after the arity check
(modelica.py:315-342): push inputs and scheduled parameters, `_simulate`,
append the observation (`_state` concatenated with `measurement`) to the
history, advance `sim_time_interval` by `time_step_size` when `is_done` is
false (at that point `_failed` still has its pre-step value `False` and the
interval is unchanged, so the advance always happens), evaluate the reward,
assign `_failed`, and return `(obs, reward, self.is_done, dict())`. -/
def ModelicaEnv.stepCore (cfg : ModelicaEnv σ) (st : EnvState σ)
    (action : List ℚ) : StepOutcome σ :=
  let st0 := { st with oracle := cfg.oracleAfterSet st action }
  match cfg._simulate st0 with
  | .raise s e => .err e { st0 with oracle := s }
  | .ok s obs0 =>
    let st1 := { st0 with oracle := s, _state := obs0 }
    let obs := obs0 ++ st1.measurement
    let st2 := { st1 with history := st1.history ++ [obs] }
    let st3 :=
      if cfg.is_done st2 then st2
      else { st2 with sim_time_interval :=
        (st2.sim_time_interval.1 + cfg.time_step_size,
         st2.sim_time_interval.2 + cfg.time_step_size) }
    let r := cfg.reward cfg.history_cols obs
    match failedOf r with
    | .error e => .err e st3
    | .ok f =>
      let st4 := { st3 with _failed := f }
      .ok obs r (cfg.is_done st4) [] st4

/-- `ModelicaEnv.step` (modelica.py:283-342): when already terminal, log a
warning and return `(self._state, -np.inf, True, dict())` without touching
any attribute; otherwise normalise the action, raise a `ValueError` when its
length differs from the number of declared model inputs (before any oracle
interaction), and otherwise run the step body. -/
def ModelicaEnv.step (cfg : ModelicaEnv σ) (st : EnvState σ)
    (action : PyAction) : StepOutcome σ :=
  if cfg.is_done st then
    .ok st._state (.val .ninf) true [] st
  else
    let a := normalizeAction action
    if a.length ≠ cfg.model_input_names.length then
      .err .valueError st
    else
      cfg.stepCore st a

/-- Result of `reset`: the initial observation and the attribute state, or a
propagated exception from the initial `_simulate` call. -/
inductive ResetOutcome (σ : Type)
  | ok (obs : List ℚ) (st : EnvState σ)
  | err (e : PyErr) (st : EnvState σ)

/-- `ModelicaEnv.reset` (modelica.py:258-281): re-initialise the FMU, set
`sim_time_interval` to `(time_start, time_start + time_step_size)`, clear
the history records, run one `_simulate`, clear `measurement`, append the
initial `_state` to the history and clear `_failed`. -/
def ModelicaEnv.reset (cfg : ModelicaEnv σ) (st : EnvState σ) : ResetOutcome σ :=
  let st0 := { st with
    oracle := cfg.resetModel st.oracle,
    sim_time_interval := (cfg.time_start, cfg.time_start + cfg.time_step_size),
    history := [] }
  match cfg._simulate st0 with
  | .raise s e => .err e { st0 with oracle := s }
  | .ok s obs0 =>
    .ok obs0 { st0 with
      oracle := s, _state := obs0, measurement := [],
      history := [obs0], _failed := false }

/-- The attribute state left behind by a `step` call, raised or not. -/
def StepOutcome.stateOf : StepOutcome σ → EnvState σ
  | .ok _ _ _ _ st => st
  | .err _ st => st

/-- The `done` component of a returned tuple, `none` when `step` raised. -/
def StepOutcome.doneOf : StepOutcome σ → Option Bool
  | .ok _ _ d _ _ => some d
  | .err _ _ => none

/-- The reward component of a returned tuple, `none` when `step` raised. -/
def StepOutcome.rewardOf : StepOutcome σ → Option RewardVal
  | .ok _ r _ _ _ => some r
  | .err _ _ => none

/-- The raised exception, when there is one. -/
def StepOutcome.errOf : StepOutcome σ → Option PyErr
  | .ok _ _ _ _ _ => none
  | .err e _ => some e

/-- The attribute state after a `reset` call, raised or not. -/
def ResetOutcome.stateOf : ResetOutcome σ → EnvState σ
  | .ok _ st => st
  | .err _ st => st

/-- The attribute state after `n` further `step` calls with a fixed
action. -/
def ModelicaEnv.iterStep (cfg : ModelicaEnv σ) (a : PyAction) :
    ℕ → EnvState σ → EnvState σ
  | 0, st => st
  | n + 1, st => (cfg.step (cfg.iterStep a n st) a).stateOf

/-- Glob matching over character lists: the semantics of
`re.fullmatch(fnmatch.translate(pat), s)` for patterns built from literal
characters, `*` (translated to `.*` under DOTALL) and `?` (translated to
`.`); `fnmatch.translate` escapes every other character so it matches
literally (modelica.py:147 compiles each pattern, modelica.py:366 applies
`re.fullmatch`).  A `*` consumes an arbitrary prefix of the string, hence
the remainder must be one of the string's suffixes. -/
def globMatch : List Char → List Char → Bool
  | [], s => s.isEmpty
  | '*' :: ps, s => s.tails.any fun t => globMatch ps t
  | '?' :: ps, s =>
    match s with
    | [] => false
    | _ :: s' => globMatch ps s'
  | p :: ps, s =>
    match s with
    | [] => false
    | c :: s' => p == c && globMatch ps s'

/-- The compiled viz-column predicate for the glob-list case of `viz_cols`:
the source joins the translated patterns with `|` into one regex
(modelica.py:154) and the renderer keeps a column when `re.fullmatch`
accepts it (modelica.py:366); a string fully matches the top-level
alternation exactly when it fully matches at least one of the translated
glob patterns. -/
def vizColMatch (pats : List String) (col : String) : Bool :=
  pats.any fun p => globMatch p.toList col.toList

/-- The renderer's column selection at episode close for one flat column
group (modelica.py:366): keep exactly the columns accepted by the combined
predicate. -/
def renderSelect (pats : List String) (cols : List String) : List String :=
  cols.filter fun c => vizColMatch pats c

/-- `FilterParams` (params.py:12-28); `float` applied to a `MutableFloat` or
a float is modelled as the wrapped rational itself. -/
structure FilterParams where
  _gain : ℚ
  _tau : ℚ

/-- `FilterParams.gain` (params.py:22-24). -/
def FilterParams.gain (p : FilterParams) : ℚ := p._gain

/-- `FilterParams.tau` (params.py:26-28). -/
def FilterParams.tau (p : FilterParams) : ℚ := p._tau

/-- `DroopParams` (params.py:31-55). -/
structure DroopParams extends FilterParams where
  nom_val : ℚ

/-- `DroopParams.gain` (params.py:51-55): `1 / float(self._gain)` when the
configured value is nonzero, else `0` — the overriding property guards the
division. -/
def DroopParams.gain (p : DroopParams) : ℚ :=
  if p._gain ≠ 0 then 1 / p._gain else 0

/-- A configuration over the trivial oracle `Unit`, used for the concrete
scenarios: the solver always succeeds, the model has one input `u` and one
output `y` whose value is constantly `1`, there are no scheduled
parameters, and `time_end` is derived from `max_episode_steps` as in
modelica.py:117-118. -/
def unitCfg (reward : List String → List ℚ → RewardVal) (time_step : ℚ)
    (max_episode_steps : Option ℕ) : ModelicaEnv Unit where
  time_start := 0
  time_step_size := time_step
  time_end := max_episode_steps.map fun k => 0 + (k : ℚ) * time_step
  reward := reward
  model_input_names := ["u"]
  history_cols := ["y"]
  model_parameters := []
  modelSet := fun s _ _ => s
  solve_ivp := fun s _ => .sol s [1] true
  commitStates := fun s _ => s
  getReal := fun _ => [1]
  resetModel := fun s => s

/-- A non-terminal attribute state for the trivial oracle, as left by
`reset` with `time_start = 0` and the given step size. -/
def unitSt (time_step : ℚ) : EnvState Unit where
  oracle := ()
  sim_time_interval := (0, time_step)
  _failed := false
  _state := [1]
  measurement := []
  history := [[1]]

/-- Trivial-oracle configuration whose reward function returns `None`. -/
def cfgNone : ModelicaEnv Unit := unitCfg (fun _ _ => .noneV) 1 (some 10)

/-- Trivial-oracle configuration whose reward function returns `np.nan`. -/
def cfgNan : ModelicaEnv Unit := unitCfg (fun _ _ => .val .nan) 1 (some 10)

/-- Trivial-oracle configuration whose reward function returns `-np.inf`. -/
def cfgNinf : ModelicaEnv Unit := unitCfg (fun _ _ => .val .ninf) 1 (some 10)

/-- Trivial-oracle configuration whose reward function returns `np.inf`. -/
def cfgPinf : ModelicaEnv Unit := unitCfg (fun _ _ => .val .inf) 1 (some 10)

/-- Trivial-oracle configuration whose reward function returns the finite
negative value `-5.0`. -/
def cfgNeg : ModelicaEnv Unit :=
  unitCfg (fun _ _ => .val (.fin (-5))) 1 (some 10)

/-- Trivial-oracle configuration whose solver raises inside
`scipy.integrate.solve_ivp`. -/
def cfgRaise : ModelicaEnv Unit :=
  { unitCfg (fun _ _ => .val (.fin 1)) 1 (some 10) with
    solve_ivp := fun s _ => .raise s .solverError }

/-- Trivial-oracle configuration with a constant reward of `1.0`. -/
def cfgOne : ModelicaEnv Unit := unitCfg (fun _ _ => .val (.fin 1)) 1 (some 10)

/-- Trivial-oracle configuration whose solver reports non-convergence
(`success = false`) while still returning a (partial) solution object. -/
def cfgNoConv : ModelicaEnv Unit :=
  { cfgOne with solve_ivp := fun s _ => .sol s [1] false }

/-- A terminal attribute state: the `_failed` flag is set. -/
def stTerm : EnvState Unit := { unitSt 1 with _failed := true }

/-- Scenario A configuration: trivial oracle, constant reward `1.0`,
`time_step = 0.1` and `max_episode_steps = k`, so that
`time_end = 0 + k * 0.1` (modelica.py:117-118). -/
def cfgA (k : ℕ) : ModelicaEnv Unit :=
  unitCfg (fun _ _ => .val (.fin 1)) (1 / 10) (some k)

/-- The attribute state of a freshly constructed environment, before
`reset` is called. -/
def stPre : EnvState Unit where
  oracle := ()
  sim_time_interval := (0, 0)
  _failed := false
  _state := []
  measurement := []
  history := []

/-- The attribute state reached from `st` by `reset` followed by `j` `step`
calls with the fixed action `a`. -/
def runA (cfg : ModelicaEnv σ) (a : PyAction) (st : EnvState σ) :
    ℕ → EnvState σ
  | 0 => (cfg.reset st).stateOf
  | j + 1 => (cfg.step (runA cfg a st j) a).stateOf

/-- `ratAbs` agrees with the lattice absolute value on `ℚ`. -/
theorem ratAbs_eq_abs (q : ℚ) : ratAbs q = |q| := by
  rcases lt_or_le q 0 with h | h
  · simp [ratAbs, h, abs_of_neg h]
  · simp [ratAbs, not_lt.2 h, abs_of_nonneg h]

/-- On an already terminal environment, `step` returns the sentinel tuple
`(self._state, -np.inf, True, dict())` and leaves every attribute
untouched. -/
theorem step_terminal (cfg : ModelicaEnv σ) (st : EnvState σ) (a : PyAction)
    (h : cfg.is_done st = true) :
    cfg.step st a = .ok st._state (.val .ninf) true [] st := by
  simp [ModelicaEnv.step, h]

/-- When `_simulate` succeeds, its result commits the last solver column and
reads the outputs, regardless of the solver's success status. -/
theorem simulate_sol (cfg : ModelicaEnv σ) (st : EnvState σ) (s' : σ)
    (y : List ℚ) (b : Bool)
    (hsol : cfg.solve_ivp st.oracle st.sim_time_interval = .sol s' y b) :
    cfg._simulate st =
      .ok (cfg.commitStates s' y) (cfg.getReal (cfg.commitStates s' y)) := by
  simp [ModelicaEnv._simulate, hsol]

/-- Full characterisation of a non-terminal, arity-correct `step` call whose
solver invocation returns a solution object and whose reward evaluation does
not raise: the observation is the model output concatenated with the
measurement, the history grows by that observation, the clock interval is
advanced by one `time_step_size` unconditionally (the advance decision at
modelica.py:332 is taken before the reward is evaluated, while `_failed` is
still false and the interval end has not been moved), `_failed` becomes the
failure flag of this step's reward, and the returned `done` is that flag
disjoined with the time-limit test on the already advanced interval end. -/
theorem step_spec (cfg : ModelicaEnv σ) (st : EnvState σ) (a : PyAction)
    (h1 : cfg.is_done st = false)
    (h2 : (normalizeAction a).length = cfg.model_input_names.length)
    (s' : σ) (y : List ℚ) (b : Bool)
    (hsol : cfg.solve_ivp (cfg.oracleAfterSet st (normalizeAction a))
      st.sim_time_interval = .sol s' y b)
    (f : Bool)
    (hf : failedOf (cfg.reward cfg.history_cols
      (cfg.getReal (cfg.commitStates s' y) ++ st.measurement)) = .ok f) :
    cfg.step st a = .ok
      (cfg.getReal (cfg.commitStates s' y) ++ st.measurement)
      (cfg.reward cfg.history_cols
        (cfg.getReal (cfg.commitStates s' y) ++ st.measurement))
      (f || timeExceededB cfg.time_end
        (st.sim_time_interval.2 + cfg.time_step_size)) []
      { st with
        oracle := cfg.commitStates s' y,
        _state := cfg.getReal (cfg.commitStates s' y),
        history := st.history ++
          [cfg.getReal (cfg.commitStates s' y) ++ st.measurement],
        sim_time_interval := (st.sim_time_interval.1 + cfg.time_step_size,
          st.sim_time_interval.2 + cfg.time_step_size),
        _failed := f } := by
  have hdone := h1
  simp only [ModelicaEnv.is_done, Bool.or_eq_false_iff] at hdone
  simp [ModelicaEnv.step, h1, h2, ModelicaEnv.stepCore, ModelicaEnv._simulate,
    hsol, ModelicaEnv.is_done, hdone.1, hdone.2, hf]

/-- A non-terminal, arity-correct `step` call whose solver invocation raises
propagates the exception; the only attribute mutated is the oracle state. -/
theorem step_raise (cfg : ModelicaEnv σ) (st : EnvState σ) (a : PyAction)
    (h1 : cfg.is_done st = false)
    (h2 : (normalizeAction a).length = cfg.model_input_names.length)
    (s' : σ) (e : PyErr)
    (hsol : cfg.solve_ivp (cfg.oracleAfterSet st (normalizeAction a))
      st.sim_time_interval = .raise s' e) :
    cfg.step st a = .err e { st with oracle := s' } := by
  simp [ModelicaEnv.step, h1, h2, ModelicaEnv.stepCore, ModelicaEnv._simulate,
    hsol]

/-- `reset` sets the clock interval to
`(time_start, time_start + time_step_size)` whether or not the initial
`_simulate` call raises. -/
theorem reset_interval (cfg : ModelicaEnv σ) (st : EnvState σ) :
    ((cfg.reset st).stateOf).sim_time_interval =
      (cfg.time_start, cfg.time_start + cfg.time_step_size) := by
  simp only [ModelicaEnv.reset]
  split <;> simp [ResetOutcome.stateOf]

/-- Full characterisation of a `reset` call whose initial `_simulate`
succeeds. -/
theorem reset_sol (cfg : ModelicaEnv σ) (st : EnvState σ) (s' : σ)
    (y : List ℚ) (b : Bool)
    (hsol : cfg.solve_ivp (cfg.resetModel st.oracle)
      (cfg.time_start, cfg.time_start + cfg.time_step_size) = .sol s' y b) :
    cfg.reset st = .ok (cfg.getReal (cfg.commitStates s' y))
      { oracle := cfg.commitStates s' y,
        sim_time_interval := (cfg.time_start,
          cfg.time_start + cfg.time_step_size),
        _failed := false,
        _state := cfg.getReal (cfg.commitStates s' y),
        measurement := [],
        history := [cfg.getReal (cfg.commitStates s' y)] } := by
  simp [ModelicaEnv.reset, ModelicaEnv._simulate, hsol]

/-- Every branch of `step` preserves the clock-interval width
`time_step_size`: the early return and the arity error leave the interval
alone, a solver exception leaves it alone, and a completed simulation either
leaves it alone or shifts both endpoints by `time_step_size`. -/
theorem step_gap (cfg : ModelicaEnv σ) (st : EnvState σ) (a : PyAction)
    (h : st.sim_time_interval.2 - st.sim_time_interval.1 = cfg.time_step_size) :
    ((cfg.step st a).stateOf).sim_time_interval.2 -
      ((cfg.step st a).stateOf).sim_time_interval.1 = cfg.time_step_size := by
  simp only [ModelicaEnv.step, ModelicaEnv.stepCore]
  repeat' split
  all_goals simp_all [StepOutcome.stateOf]

/-- Whenever a `step` call returns `done = True`, the attribute state it
leaves behind is terminal: the early-return branch requires `is_done`
already, and the normal branch returns `self.is_done` evaluated on exactly
the state it stores — so an observed `done = True` is equivalent to the
stored state being terminal at the next call. -/
theorem step_done_terminal (cfg : ModelicaEnv σ) (st : EnvState σ)
    (a : PyAction) (obs : List ℚ) (r : RewardVal)
    (i : List (String × String)) (st' : EnvState σ)
    (h : cfg.step st a = .ok obs r true i st') :
    cfg.is_done st' = true := by
  simp only [ModelicaEnv.step, ModelicaEnv.stepCore] at h
  repeat' split at h
  all_goals
    first
      | (simp_all; done)
      | (simp only [StepOutcome.ok.injEq] at h
         obtain ⟨h1, h2, h3, h4, h5⟩ := h
         rw [← h5]
         exact h3)

/-- The trivial non-terminal state is indeed not done under `cfgOne`. -/
theorem cfgOne_not_done : cfgOne.is_done (unitSt 1) = false := by
  norm_num [cfgOne, unitCfg, unitSt, ModelicaEnv.is_done, timeExceededB,
    ratAbs]

/-- The trivial non-terminal state is indeed not done under `cfgRaise`. -/
theorem cfgRaise_not_done : cfgRaise.is_done (unitSt 1) = false := by
  norm_num [cfgRaise, unitCfg, unitSt, ModelicaEnv.is_done, timeExceededB,
    ratAbs]

/-- C1: the claim says that after the reward evaluation the `failed` flag is
set exactly for NaN, `-inf` and `None` rewards, with `step` still returning
a well-formed tuple in all three cases.  The code agrees for NaN and `-inf`
(and a positive-infinite reward is indeed no failure), but for a `None`
reward `np.isnan(None)` at modelica.py:339 raises a `TypeError` before the
`reward is None` disjunct is reached, so `step` raises instead of returning
a tuple — contradicting both the claim and the code's own docstring
(modelica.py:51), which names `None` as a supported failure signal. -/
theorem claim_C1 :
    (cfgNone.step (unitSt 1) (.list [0])).errOf = some .typeError ∧
    (cfgNan.step (unitSt 1) (.list [0])).doneOf = some true ∧
    (cfgNan.step (unitSt 1) (.list [0])).stateOf._failed = true ∧
    (cfgNinf.step (unitSt 1) (.list [0])).doneOf = some true ∧
    (cfgNinf.step (unitSt 1) (.list [0])).stateOf._failed = true ∧
    (cfgPinf.step (unitSt 1) (.list [0])).doneOf = some false ∧
    (cfgPinf.step (unitSt 1) (.list [0])).stateOf._failed = false ∧
    (cfgNeg.step (unitSt 1) (.list [0])).stateOf._failed = false ∧
    (cfgOne.step (unitSt 1) (.list [0])).stateOf._failed = false := by
  refine ⟨?_, ?_, ?_, ?_, ?_, ?_, ?_, ?_, ?_⟩ <;>
    norm_num [cfgNone, cfgNan, cfgNinf, cfgPinf, cfgNeg, cfgOne, unitCfg,
      unitSt,
      ModelicaEnv.step, ModelicaEnv.stepCore, ModelicaEnv._simulate,
      ModelicaEnv.oracleAfterSet, ModelicaEnv.is_done, timeExceededB, ratAbs,
      failedOf, npIsNan, npIsInf, pyLtZero, normalizeAction,
      StepOutcome.errOf, StepOutcome.doneOf, StepOutcome.stateOf] <;>
    decide

/-- C2: on an environment that is already terminal, every further `step`
call returns the last observation with reward `-np.inf`, `done = True` and
an empty info mapping, mutating nothing — clock, history, oracle and
`_failed` are untouched — and iterating `step` any number of times leaves
the state fixed, so all post-terminal calls return the same tuple. -/
theorem claim_C2 (cfg : ModelicaEnv σ) (st : EnvState σ) (a : PyAction)
    (h : cfg.is_done st = true) :
    cfg.step st a = .ok st._state (.val .ninf) true [] st ∧
    ∀ n : ℕ, cfg.iterStep a n st = st := by
  refine ⟨step_terminal cfg st a h, ?_⟩
  intro n
  induction n with
  | zero => rfl
  | succ n ih =>
    simp [ModelicaEnv.iterStep, ih, step_terminal cfg st a h,
      StepOutcome.stateOf]

/-- C2 witness: a concrete terminal state with the trivial oracle. -/
theorem claim_C2_witness :
    cfgOne.step stTerm (.list [0]) =
      .ok stTerm._state (.val .ninf) true [] stTerm ∧
    cfgOne.iterStep (.list [0]) 5 stTerm = stTerm := by
  have h := claim_C2 cfgOne stTerm (.list [0]) rfl
  exact ⟨h.1, h.2 5⟩

/-- C3 counterexample: the claim says a step whose reward signals failure
does not advance the clock interval.  On the trivial oracle with a constant
`-np.inf` reward and the time limit far away, the step starting from
interval `(0, 1)` returns `done = True` because of the failure, yet the
stored interval has advanced to `(1, 2)` — the advance at modelica.py:334 is
decided before the reward is evaluated at modelica.py:338. -/
theorem claim_C3_counterexample :
    (unitSt 1).sim_time_interval = (0, 1) ∧
    (cfgNinf.step (unitSt 1) (.list [0])).doneOf = some true ∧
    (cfgNinf.step (unitSt 1) (.list [0])).stateOf._failed = true ∧
    (cfgNinf.step (unitSt 1) (.list [0])).stateOf.sim_time_interval = (1, 2) := by
  refine ⟨rfl, ?_, ?_, ?_⟩ <;>
    norm_num [cfgNinf, unitCfg, unitSt, ModelicaEnv.step,
      ModelicaEnv.stepCore, ModelicaEnv._simulate, ModelicaEnv.oracleAfterSet,
      ModelicaEnv.is_done, timeExceededB, ratAbs, failedOf, npIsNan, npIsInf,
      pyLtZero, normalizeAction, StepOutcome.doneOf, StepOutcome.stateOf]

/-- C3 (amended): in a non-terminal, arity-correct step with a completed
solver call and a non-raising reward evaluation, the returned `done` equals
`failed OR |t1 + step_size| > end_time`, where `failed` reflects this very
step's reward and `t1` is the interval end at entry: the clock interval is
advanced by one `step_size` unconditionally, because the advance decision is
taken before the reward is evaluated — so a step whose reward signals
failure still advances the clock interval. -/
theorem claim_C3 (cfg : ModelicaEnv σ) (st : EnvState σ) (a : PyAction)
    (h1 : cfg.is_done st = false)
    (h2 : (normalizeAction a).length = cfg.model_input_names.length)
    (s' : σ) (y : List ℚ) (b : Bool)
    (hsol : cfg.solve_ivp (cfg.oracleAfterSet st (normalizeAction a))
      st.sim_time_interval = .sol s' y b)
    (f : Bool)
    (hf : failedOf (cfg.reward cfg.history_cols
      (cfg.getReal (cfg.commitStates s' y) ++ st.measurement)) = .ok f) :
    cfg.step st a = .ok
      (cfg.getReal (cfg.commitStates s' y) ++ st.measurement)
      (cfg.reward cfg.history_cols
        (cfg.getReal (cfg.commitStates s' y) ++ st.measurement))
      (f || timeExceededB cfg.time_end
        (st.sim_time_interval.2 + cfg.time_step_size)) []
      { st with
        oracle := cfg.commitStates s' y,
        _state := cfg.getReal (cfg.commitStates s' y),
        history := st.history ++
          [cfg.getReal (cfg.commitStates s' y) ++ st.measurement],
        sim_time_interval := (st.sim_time_interval.1 + cfg.time_step_size,
          st.sim_time_interval.2 + cfg.time_step_size),
        _failed := f } :=
  step_spec cfg st a h1 h2 s' y b hsol f hf

/-- C3 witness: the amended characterisation applied to the trivial oracle
with constant reward `1.0`. -/
theorem claim_C3_witness :
    cfgOne.step (unitSt 1) (.list [0]) = .ok [1] (.val (.fin 1))
      (false || timeExceededB cfgOne.time_end (1 + 1)) []
      { unitSt 1 with
        oracle := (),
        _state := [1],
        history := (unitSt 1).history ++ [[1]],
        sim_time_interval := (0 + 1, 1 + 1),
        _failed := false } := by
  have h := claim_C3 cfgOne (unitSt 1) (.list [0]) cfgOne_not_done rfl () [1]
    true rfl false rfl
  simpa [cfgOne, unitCfg, unitSt] using h

/-- C4 counterexample: the claim says a step in which the solver raises
still returns a well-formed tuple and never propagates an exception.  With
the trivial oracle whose `solve_ivp` raises, `step` propagates the
exception: there is no tuple at all. -/
theorem claim_C4_counterexample :
    (cfgRaise.step (unitSt 1) (.list [0])).errOf = some .solverError ∧
    (cfgRaise.step (unitSt 1) (.list [0])).doneOf = none := by
  constructor <;>
    norm_num [cfgRaise, unitCfg, unitSt, ModelicaEnv.step,
      ModelicaEnv.stepCore, ModelicaEnv._simulate, ModelicaEnv.oracleAfterSet,
      ModelicaEnv.is_done, timeExceededB, ratAbs, normalizeAction,
      StepOutcome.doneOf, StepOutcome.errOf]

/-- C4 (amended): `_simulate` wraps `scipy.integrate.solve_ivp` in no
try/except and never inspects the returned success status.  Hence a solver
exception in a non-terminal, arity-correct step propagates out of `step`
uncaught (mutating only the oracle), and an unconverged solve is
indistinguishable from a converged one: the last solution column is
committed and the step continues normally, so a simulation failure surfaces
only if the reward function signals it. -/
theorem claim_C4 (cfg : ModelicaEnv σ) :
    (∀ (st : EnvState σ) (a : PyAction), cfg.is_done st = false →
      (normalizeAction a).length = cfg.model_input_names.length →
      ∀ (s' : σ) (e : PyErr),
        cfg.solve_ivp (cfg.oracleAfterSet st (normalizeAction a))
          st.sim_time_interval = .raise s' e →
        cfg.step st a = .err e { st with oracle := s' }) ∧
    (∀ (st : EnvState σ) (s' : σ) (y : List ℚ) (b : Bool),
      cfg.solve_ivp st.oracle st.sim_time_interval = .sol s' y b →
      cfg._simulate st =
        .ok (cfg.commitStates s' y) (cfg.getReal (cfg.commitStates s' y))) :=
  ⟨fun st a h1 h2 s' e hsol => step_raise cfg st a h1 h2 s' e hsol,
   fun st s' y b hsol => simulate_sol cfg st s' y b hsol⟩

/-- C4 witness: the raising half at the raising trivial oracle, and the
ignored-success half at an unconverged (`success = false`) solution. -/
theorem claim_C4_witness :
    cfgRaise.step (unitSt 1) (.list [0]) =
      .err .solverError { unitSt 1 with oracle := () } ∧
    cfgNoConv._simulate (unitSt 1) = .ok () [1] := by
  constructor
  · exact (claim_C4 cfgRaise).1 (unitSt 1) (.list [0]) cfgRaise_not_done rfl ()
      .solverError rfl
  · exact (claim_C4 cfgNoConv).2 (unitSt 1) () [1] false rfl

/-- C6: a `step` call on a non-terminal environment whose normalised action
length differs from the number of declared model inputs raises a
`ValueError` before any oracle interaction: the returned attribute state is
exactly the entry state — no inputs set, no integration run, history and
clock unchanged. -/
theorem claim_C6 (cfg : ModelicaEnv σ) (st : EnvState σ) (a : PyAction)
    (h1 : cfg.is_done st = false)
    (h2 : (normalizeAction a).length ≠ cfg.model_input_names.length) :
    cfg.step st a = .err .valueError st := by
  simp [ModelicaEnv.step, h1, h2]

/-- C6 witness: a two-element action against the single declared input of
the trivial oracle. -/
theorem claim_C6_witness :
    cfgOne.step (unitSt 1) (.list [1, 2]) = .err .valueError (unitSt 1) :=
  claim_C6 cfgOne (unitSt 1) (.list [1, 2]) cfgOne_not_done (by decide)

/-- C10: a non-iterable (scalar) action is wrapped into a one-element list
before the arity check, so on a non-terminal environment declaring exactly
one input a scalar action is accepted — the step proceeds into the step
body with the singleton list, instead of being rejected with a type
error. -/
theorem claim_C10 (σ : Type) :
    (∀ x : ℚ, normalizeAction (.scalar x) = [x]) ∧
    (∀ (cfg : ModelicaEnv σ) (st : EnvState σ) (x : ℚ),
      cfg.is_done st = false → cfg.model_input_names.length = 1 →
      cfg.step st (.scalar x) = cfg.stepCore st [x]) := by
  refine ⟨fun x => rfl, fun cfg st x h1 hlen => ?_⟩
  simp [ModelicaEnv.step, h1, normalizeAction, hlen]

/-- C10 witness: a bare scalar action on the trivial one-input oracle. -/
theorem claim_C10_witness :
    normalizeAction (.scalar 5) = [5] ∧
    cfgOne.step (unitSt 1) (.scalar 5) = cfgOne.stepCore (unitSt 1) [5] :=
  ⟨(claim_C10 Unit).1 5,
   (claim_C10 Unit).2 cfgOne (unitSt 1) 5 cfgOne_not_done rfl⟩

/-- C7: the clock-interval width `t1 - t0` equals `time_step_size` after
`reset` (whether or not the initial simulation raises) and is preserved by
every `step` branch; moreover a non-terminal, arity-correct step with a
completed solver call and non-raising reward evaluation shifts both interval
endpoints by exactly one `time_step_size`.  In the embedding the clock is a
field touched only by `reset` and `step`, so no other operation mutates
it. -/
theorem claim_C7 (cfg : ModelicaEnv σ) :
    (∀ st : EnvState σ,
      ((cfg.reset st).stateOf).sim_time_interval.2 -
        ((cfg.reset st).stateOf).sim_time_interval.1 = cfg.time_step_size) ∧
    (∀ (st : EnvState σ) (a : PyAction),
      st.sim_time_interval.2 - st.sim_time_interval.1 = cfg.time_step_size →
      ((cfg.step st a).stateOf).sim_time_interval.2 -
        ((cfg.step st a).stateOf).sim_time_interval.1 = cfg.time_step_size) ∧
    (∀ (st : EnvState σ) (a : PyAction) (s' : σ) (y : List ℚ) (b f : Bool),
      cfg.is_done st = false →
      (normalizeAction a).length = cfg.model_input_names.length →
      cfg.solve_ivp (cfg.oracleAfterSet st (normalizeAction a))
        st.sim_time_interval = .sol s' y b →
      failedOf (cfg.reward cfg.history_cols
        (cfg.getReal (cfg.commitStates s' y) ++ st.measurement)) = .ok f →
      ((cfg.step st a).stateOf).sim_time_interval =
        (st.sim_time_interval.1 + cfg.time_step_size,
         st.sim_time_interval.2 + cfg.time_step_size)) := by
  refine ⟨fun st => ?_, fun st a h => step_gap cfg st a h,
    fun st a s' y b f h1 h2 hsol hf => ?_⟩
  · rw [reset_interval cfg st]
    exact add_sub_cancel_left _ _
  · rw [step_spec cfg st a h1 h2 s' y b hsol f hf]
    rfl

/-- C7 witness: the invariant at the trivial oracle. -/
theorem claim_C7_witness :
    ((cfgOne.reset (unitSt 1)).stateOf).sim_time_interval.2 -
      ((cfgOne.reset (unitSt 1)).stateOf).sim_time_interval.1 =
      cfgOne.time_step_size ∧
    ((cfgOne.step (unitSt 1) (.list [0])).stateOf).sim_time_interval.2 -
      ((cfgOne.step (unitSt 1) (.list [0])).stateOf).sim_time_interval.1 =
      cfgOne.time_step_size ∧
    ((cfgOne.step (unitSt 1) (.list [0])).stateOf).sim_time_interval =
      ((unitSt 1).sim_time_interval.1 + cfgOne.time_step_size,
       (unitSt 1).sim_time_interval.2 + cfgOne.time_step_size) :=
  ⟨(claim_C7 cfgOne).1 (unitSt 1),
   (claim_C7 cfgOne).2.1 (unitSt 1) (.list [0])
     (by norm_num [unitSt, cfgOne, unitCfg]),
   (claim_C7 cfgOne).2.2 (unitSt 1) (.list [0]) () [1] true false
     cfgOne_not_done rfl rfl rfl⟩

/-- C8: the glob-list form of `viz_cols` is compiled into one combined
predicate and rendering selects exactly the columns fully matching at least
one pattern; concretely the patterns `*.i` over columns `a.i`, `a.v`, `b.i`
select exactly `a.i` and `b.i`. -/
theorem claim_C8 :
    renderSelect ["*.i"] ["a.i", "a.v", "b.i"] = ["a.i", "b.i"] ∧
    ∀ (pats cols : List String) (c : String),
      c ∈ renderSelect pats cols ↔ c ∈ cols ∧ vizColMatch pats c = true := by
  refine ⟨by decide, fun pats cols c => ?_⟩
  simp [renderSelect, List.mem_filter]

/-- C9: reading `DroopParams.gain` returns the reciprocal of the configured
value when that value is nonzero and `0` when it is zero — the division is
guarded by the conditional in the property, so it is never evaluated with a
zero divisor. -/
theorem claim_C9 (p : DroopParams) :
    (p._gain ≠ 0 → p.gain = 1 / p._gain) ∧ (p._gain = 0 → p.gain = 0) := by
  constructor <;> intro h <;> simp [DroopParams.gain, h]

/-- C9 witness: a droop gain configured as `2` reads back as `1/2`, and a
zero configuration reads back as `0`. -/
theorem claim_C9_witness :
    (DroopParams.mk ⟨2, 1⟩ 0).gain = 1 / 2 ∧
    (DroopParams.mk ⟨0, 1⟩ 0).gain = 0 := by
  constructor
  · have h := (claim_C9 ⟨⟨2, 1⟩, 0⟩).1 (by norm_num)
    simpa using h
  · exact (claim_C9 ⟨⟨0, 1⟩, 0⟩).2 rfl

/-- The time-limit test is false for a nonnegative interval end below the
bound. -/
theorem timeExceededB_le (te t : ℚ) (h0 : 0 ≤ t) (h : t ≤ te) :
    timeExceededB (some te) t = false := by
  have habs : ratAbs t = t := by simp [ratAbs, not_lt.2 h0]
  simp [timeExceededB, habs, not_lt.2 h]

/-- The time-limit test is true for a nonnegative interval end above the
bound. -/
theorem timeExceededB_lt (te t : ℚ) (h0 : 0 ≤ t) (h : te < t) :
    timeExceededB (some te) t = true := by
  have habs : ratAbs t = t := by simp [ratAbs, not_lt.2 h0]
  simp [timeExceededB, habs, h]

/-- Under a total solver, a never-failing reward function, a nonnegative
start time, a positive step size and the time limit
`time_end = time_start + k * time_step_size`, the clock interval after
`reset` and `j ≤ k` steps is
`(time_start + j * step, time_start + (j+1) * step)` and the failure flag
stays clear. -/
theorem runA_spec (cfg : ModelicaEnv σ) (a : PyAction) (st : EnvState σ)
    (k : ℕ) (hts : 0 ≤ cfg.time_start) (hh : 0 < cfg.time_step_size)
    (hte : cfg.time_end =
      some (cfg.time_start + (k : ℚ) * cfg.time_step_size))
    (hsolv : ∀ (s : σ) (i : ℚ × ℚ), ∃ s' y b,
      cfg.solve_ivp s i = .sol s' y b)
    (hrw : ∀ cols obs, failedOf (cfg.reward cols obs) = .ok false)
    (ha : (normalizeAction a).length = cfg.model_input_names.length) :
    ∀ j, j ≤ k →
      (runA cfg a st j).sim_time_interval =
        (cfg.time_start + (j : ℚ) * cfg.time_step_size,
         cfg.time_start + ((j : ℚ) + 1) * cfg.time_step_size) ∧
      (runA cfg a st j)._failed = false := by
  intro j
  induction j with
  | zero =>
    intro _
    obtain ⟨s', y, b, hsol⟩ := hsolv (cfg.resetModel st.oracle)
      (cfg.time_start, cfg.time_start + cfg.time_step_size)
    have h0 := reset_sol cfg st s' y b hsol
    refine ⟨?_, ?_⟩
    · simp only [runA]
      rw [h0]
      simp only [ResetOutcome.stateOf]
      rw [Prod.mk.injEq]
      constructor <;> push_cast <;> ring
    · simp only [runA]
      rw [h0]
      rfl
  | succ j ih =>
    intro hjk
    have ihj := ih (Nat.le_of_succ_le hjk)
    have hpos : (0 : ℚ) ≤
        cfg.time_start + ((j : ℚ) + 1) * cfg.time_step_size :=
      add_nonneg hts (mul_nonneg (by positivity) (le_of_lt hh))
    have hle : cfg.time_start + ((j : ℚ) + 1) * cfg.time_step_size ≤
        cfg.time_start + (k : ℚ) * cfg.time_step_size := by
      have hc : ((j : ℚ) + 1) ≤ (k : ℚ) := by exact_mod_cast hjk
      have := mul_le_mul_of_nonneg_right hc (le_of_lt hh)
      linarith
    have h1 : cfg.is_done (runA cfg a st j) = false := by
      simp only [ModelicaEnv.is_done, ihj.2, Bool.false_or, hte, ihj.1]
      exact timeExceededB_le _ _ hpos hle
    obtain ⟨s', y, b, hsol⟩ := hsolv
      (cfg.oracleAfterSet (runA cfg a st j) (normalizeAction a))
      (runA cfg a st j).sim_time_interval
    have hf := hrw cfg.history_cols
      (cfg.getReal (cfg.commitStates s' y) ++ (runA cfg a st j).measurement)
    have hstep := step_spec cfg (runA cfg a st j) a h1 ha s' y b hsol false hf
    refine ⟨?_, ?_⟩
    · simp only [runA]
      rw [hstep]
      simp only [StepOutcome.stateOf, ihj.1]
      rw [Prod.mk.injEq]
      constructor <;> push_cast <;> ring
    · simp only [runA]
      rw [hstep]
      rfl

/-- C5: for any environment with a total solver, a reward function that
never signals failure, `0 ≤ time_start`, `0 < time_step_size`,
`max_episode_steps = k ≥ 1` (so `time_end = time_start + k * step`), and a
well-arity action, exactly `k` non-terminal `step` calls are reachable
after `reset`: calls `1 .. k-1` return `done = False`, call `k` returns
`done = True`, every one of those calls returns the reward function's value
(never the sentinel), and call `k+1` only hits the post-terminal sentinel
path. -/
theorem claim_C5 (σ : Type) (cfg : ModelicaEnv σ) (a : PyAction)
    (st : EnvState σ) (k : ℕ) (hk : 1 ≤ k)
    (hts : 0 ≤ cfg.time_start) (hh : 0 < cfg.time_step_size)
    (hte : cfg.time_end =
      some (cfg.time_start + (k : ℚ) * cfg.time_step_size))
    (hsolv : ∀ (s : σ) (i : ℚ × ℚ), ∃ s' y b,
      cfg.solve_ivp s i = .sol s' y b)
    (hrw : ∀ cols obs, failedOf (cfg.reward cols obs) = .ok false)
    (ha : (normalizeAction a).length = cfg.model_input_names.length) :
    (∀ j : ℕ, j + 1 < k →
      (cfg.step (runA cfg a st j) a).doneOf = some false) ∧
    (∀ j : ℕ, j + 1 = k →
      (cfg.step (runA cfg a st j) a).doneOf = some true) ∧
    (∀ j : ℕ, j < k →
      (cfg.step (runA cfg a st j) a).rewardOf =
        some (cfg.reward cfg.history_cols
          (((cfg.step (runA cfg a st j) a).stateOf)._state ++
            (runA cfg a st j).measurement))) ∧
    (cfg.step (runA cfg a st k) a =
      .ok (runA cfg a st k)._state (.val .ninf) true [] (runA cfg a st k)) := by
  have key : ∀ j : ℕ, j < k →
      (cfg.step (runA cfg a st j) a).doneOf =
        some (timeExceededB
          (some (cfg.time_start + (k : ℚ) * cfg.time_step_size))
          (cfg.time_start + ((j : ℚ) + 1) * cfg.time_step_size +
            cfg.time_step_size)) ∧
      (cfg.step (runA cfg a st j) a).rewardOf =
        some (cfg.reward cfg.history_cols
          (((cfg.step (runA cfg a st j) a).stateOf)._state ++
            (runA cfg a st j).measurement)) := by
    intro j hj
    have ihj := runA_spec cfg a st k hts hh hte hsolv hrw ha j (le_of_lt hj)
    have hpos : (0 : ℚ) ≤
        cfg.time_start + ((j : ℚ) + 1) * cfg.time_step_size :=
      add_nonneg hts (mul_nonneg (by positivity) (le_of_lt hh))
    have hle : cfg.time_start + ((j : ℚ) + 1) * cfg.time_step_size ≤
        cfg.time_start + (k : ℚ) * cfg.time_step_size := by
      have hc : ((j : ℚ) + 1) ≤ (k : ℚ) := by exact_mod_cast hj
      have := mul_le_mul_of_nonneg_right hc (le_of_lt hh)
      linarith
    have h1 : cfg.is_done (runA cfg a st j) = false := by
      simp only [ModelicaEnv.is_done, ihj.2, Bool.false_or, hte, ihj.1]
      exact timeExceededB_le _ _ hpos hle
    obtain ⟨s', y, b, hsol⟩ := hsolv
      (cfg.oracleAfterSet (runA cfg a st j) (normalizeAction a))
      (runA cfg a st j).sim_time_interval
    have hf := hrw cfg.history_cols
      (cfg.getReal (cfg.commitStates s' y) ++ (runA cfg a st j).measurement)
    have hstep := step_spec cfg (runA cfg a st j) a h1 ha s' y b hsol false hf
    rw [hstep]
    refine ⟨?_, rfl⟩
    simp only [StepOutcome.doneOf, Bool.false_or, hte, ihj.1]
  refine ⟨fun j hj => ?_, fun j hj => ?_, fun j hj => (key j hj).2, ?_⟩
  · rw [(key j (by omega)).1]
    have hc : ((j : ℚ) + 2) ≤ (k : ℚ) := by exact_mod_cast hj
    have hmul := mul_le_mul_of_nonneg_right hc (le_of_lt hh)
    have hpos : (0 : ℚ) ≤ cfg.time_start +
        ((j : ℚ) + 1) * cfg.time_step_size + cfg.time_step_size := by
      have := mul_nonneg (show (0:ℚ) ≤ (j : ℚ) + 1 by positivity)
        (le_of_lt hh)
      linarith
    rw [timeExceededB_le (cfg.time_start + (k : ℚ) * cfg.time_step_size)
      (cfg.time_start + ((j : ℚ) + 1) * cfg.time_step_size +
        cfg.time_step_size) hpos (by nlinarith)]
  · rw [(key j (by omega)).1]
    have hc : ((j : ℚ) + 1) = (k : ℚ) := by exact_mod_cast hj
    have hpos : (0 : ℚ) ≤ cfg.time_start +
        ((j : ℚ) + 1) * cfg.time_step_size + cfg.time_step_size := by
      have := mul_nonneg (show (0:ℚ) ≤ (j : ℚ) + 1 by positivity)
        (le_of_lt hh)
      linarith
    rw [timeExceededB_lt (cfg.time_start + (k : ℚ) * cfg.time_step_size)
      (cfg.time_start + ((j : ℚ) + 1) * cfg.time_step_size +
        cfg.time_step_size) hpos (by nlinarith)]
  · have hkk := runA_spec cfg a st k hts hh hte hsolv hrw ha k le_rfl
    have hpos : (0 : ℚ) ≤
        cfg.time_start + ((k : ℚ) + 1) * cfg.time_step_size :=
      add_nonneg hts (mul_nonneg (by positivity) (le_of_lt hh))
    have hdone : cfg.is_done (runA cfg a st k) = true := by
      simp only [ModelicaEnv.is_done, hkk.2, Bool.false_or, hte, hkk.1]
      exact timeExceededB_lt _ _ hpos (by nlinarith)
    exact step_terminal cfg (runA cfg a st k) a hdone

/-- C5 witness: Scenario A at `k = 3` over the trivial oracle
(`step_size = 0.1`, `max_episode_steps = 3`, reward constantly `1.0`):
`done = False` on the first two calls, `done = True` on the third, reward
`1.0` on all three, and the fourth call hits the sentinel path. -/
theorem claim_C5_witness :
    ((cfgA 3).step (runA (cfgA 3) (.list [0]) stPre 0) (.list [0])).doneOf =
      some false ∧
    ((cfgA 3).step (runA (cfgA 3) (.list [0]) stPre 1) (.list [0])).doneOf =
      some false ∧
    ((cfgA 3).step (runA (cfgA 3) (.list [0]) stPre 2) (.list [0])).doneOf =
      some true ∧
    ((cfgA 3).step (runA (cfgA 3) (.list [0]) stPre 0) (.list [0])).rewardOf =
      some (.val (.fin 1)) ∧
    ((cfgA 3).step (runA (cfgA 3) (.list [0]) stPre 1) (.list [0])).rewardOf =
      some (.val (.fin 1)) ∧
    ((cfgA 3).step (runA (cfgA 3) (.list [0]) stPre 2) (.list [0])).rewardOf =
      some (.val (.fin 1)) ∧
    (cfgA 3).step (runA (cfgA 3) (.list [0]) stPre 3) (.list [0]) =
      .ok (runA (cfgA 3) (.list [0]) stPre 3)._state (.val .ninf) true []
        (runA (cfgA 3) (.list [0]) stPre 3) := by
  have h := claim_C5 Unit (cfgA 3) (.list [0]) stPre 3 (by norm_num)
    (by norm_num [cfgA, unitCfg]) (by norm_num [cfgA, unitCfg])
    (by norm_num [cfgA, unitCfg]) (fun s i => ⟨s, [1], true, rfl⟩)
    (fun cols obs => rfl) rfl
  refine ⟨h.1 0 (by norm_num), h.1 1 (by norm_num), h.2.1 2 rfl, ?_, ?_, ?_,
    h.2.2.2⟩
  · simpa [cfgA, unitCfg] using h.2.2.1 0 (by norm_num)
  · simpa [cfgA, unitCfg] using h.2.2.1 1 (by norm_num)
  · simpa [cfgA, unitCfg] using h.2.2.1 2 (by norm_num)

end OMG
